import Mathlib

/- Verification of the DonCEy Kong JP client (src/DonCEy_Kong_JP/Client).
   The protocol state machine and movement-intent resolver of
   client_interface.c are shallowly embedded here: received lines are
   lists of characters, the sscanf formats used by the C code are
   modelled by small scanners with the exact semantics of the scanf
   conversions involved (%d, %s with a width, whitespace skipping,
   literal matching), and each phase of the client (handshake, map
   transfer, roster fetch, live loop) becomes a function over the list
   of lines the transport delivers.  A disconnect is modelled as the
   line list running out.  Every receive loop of the C code treats the
   recv_line result len <= 0 as fatal; that covers both a disconnect
   and an empty received line (recv_line returns 0 for it), so each
   embedded loop checks the empty line explicitly and fails the same
   way the corresponding C check does. -/

/-- Whitespace as recognised by isspace / the scanf conversions. -/
def isWsChar (c : Char) : Bool :=
  c == ' ' || c == '\t' || c == '\n' || c == '\r' || c == '\x0b' || c == '\x0c'

/-- Skip leading whitespace, as %d and %s do before converting. -/
def dropWs (s : List Char) : List Char := s.dropWhile isWsChar

/-- Literal (non-whitespace) characters of a scanf format: each one must
match the next input character exactly; returns the remaining input. -/
def matchLit : List Char → List Char → Option (List Char)
  | [], s => some s
  | _ :: _, [] => none
  | c :: cs, d :: ds => if c = d then matchLit cs ds else none

/-- strncmp(line, lit, length lit) == 0 for a NUL-free literal, i.e. the
line starts with the literal.  Used for the MAP_END, PLAYERS_BEGIN and
PLAYERS_END checks of client_interface.c. -/
def startsWithLit : List Char → List Char → Bool
  | [], _ => true
  | _ :: _, [] => false
  | c :: cs, d :: ds => c == d && startsWithLit cs ds

/-- A run of decimal digits with its value; fails when no digit is
present (the matching-failure case of %d). -/
def scanNat (s : List Char) : Option (Nat × List Char) :=
  let ds := s.takeWhile Char.isDigit
  if ds.isEmpty then none
  else some (ds.foldl (fun n c => 10 * n + (c.toNat - 48)) 0, s.drop ds.length)

/-- The %d conversion: skip whitespace, optional sign, at least one
digit, greedy. -/
def scanInt (s : List Char) : Option (Int × List Char) :=
  match dropWs s with
  | '-' :: t => (scanNat t).map fun p => (-(p.1 : Int), p.2)
  | '+' :: t => (scanNat t).map fun p => ((p.1 : Int), p.2)
  | t => (scanNat t).map fun p => ((p.1 : Int), p.2)

/-- The %Ns conversion (a width-limited %s): skip whitespace, then take
up to maxLen non-whitespace characters, at least one. -/
def scanTok (maxLen : Nat) (s : List Char) : Option (List Char × List Char) :=
  let s2 := dropWs s
  let tok := (s2.takeWhile (fun c => !isWsChar c)).take maxLen
  if tok.isEmpty then none else some (tok, s2.drop tok.length)

/-- The plain %s conversion: skip whitespace, take all following
non-whitespace characters, at least one. -/
def scanTokU (s : List Char) : Option (List Char × List Char) :=
  let s2 := dropWs s
  let tok := s2.takeWhile (fun c => !isWsChar c)
  if tok.isEmpty then none else some (tok, s2.drop tok.length)

/- The literal tokens of the wire protocol. -/

def mapSizeLit : List Char := ['M','A','P','_','S','I','Z','E']
def mapRowLit : List Char := ['M','A','P','_','R','O','W']
def mapEndLit : List Char := ['M','A','P','_','E','N','D']
def playersBeginLit : List Char := ['P','L','A','Y','E','R','S','_','B','E','G','I','N']
def playersEndLit : List Char := ['P','L','A','Y','E','R','S','_','E','N','D']
def playerLit : List Char := ['P','L','A','Y','E','R']
def joinedLit : List Char := ['J','O','I','N','E','D']
def spectateOkLit : List Char := ['S','P','E','C','T','A','T','E','_','O','K']
def spectateWaitLit : List Char := ['S','P','E','C','T','A','T','E','_','W','A','I','T']
def stateLit : List Char := ['S','T','A','T','E']
def trueLit : List Char := ['t','r','u','e']

/-- sscanf(line, "MAP_SIZE %d %d", &width, &height) == 2. -/
def parse_map_size (l : List Char) : Option (Int × Int) :=
  (matchLit mapSizeLit l).bind fun r =>
  (scanInt r).bind fun p =>
  (scanInt p.2).map fun q => (p.1, q.1)

/-- sscanf(line, "MAP_ROW %d %s", &y, row) == 2. -/
def parse_map_row (l : List Char) : Option (Int × List Char) :=
  (matchLit mapRowLit l).bind fun r =>
  (scanInt r).bind fun p =>
  (scanTokU p.2).map fun q => (p.1, q.1)

/-- sscanf(line, "PLAYER %d %31s", &id, name) == 2. -/
def parse_player_entry (l : List Char) : Option (Int × List Char) :=
  (matchLit playerLit l).bind fun r =>
  (scanInt r).bind fun p =>
  (scanTok 31 p.2).map fun q => (p.1, q.1)

/-- sscanf(line, "JOINED %d", &id) == 1. -/
def parse_joined (l : List Char) : Option Int :=
  (matchLit joinedLit l).bind fun r => (scanInt r).map Prod.fst

/-- sscanf(line, "SPECTATE_OK %d", &id) == 1. -/
def parse_spectate_ok (l : List Char) : Option Int :=
  (matchLit spectateOkLit l).bind fun r => (scanInt r).map Prod.fst

/-- sscanf(line, "SPECTATE_WAIT %d", &id) == 1. -/
def parse_spectate_wait (l : List Char) : Option Int :=
  (matchLit spectateWaitLit l).bind fun r => (scanInt r).map Prod.fst

/-- The nine fields read by the player-mode live loop:
sscanf(line, "%15s %d %d %d %d %d %d %d %7s", tag, &s, &pid, &x, &y,
&score, &level, &lives, gameOverStr) == 9. -/
structure StateLine where
  tag : List Char
  seq : Int
  pid : Int
  x : Int
  y : Int
  score : Int
  level : Int
  lives : Int
  over : List Char
deriving DecidableEq

def parse_state_player (l : List Char) : Option StateLine :=
  (scanTok 15 l).bind fun t =>
  (scanInt t.2).bind fun s =>
  (scanInt s.2).bind fun p =>
  (scanInt p.2).bind fun x =>
  (scanInt x.2).bind fun y =>
  (scanInt y.2).bind fun sc =>
  (scanInt sc.2).bind fun lv =>
  (scanInt lv.2).bind fun lf =>
  (scanTok 7 lf.2).map fun go =>
  ⟨t.1, s.1, p.1, x.1, y.1, sc.1, lv.1, lf.1, go.1⟩

/-- The live fields of the tracked entity (ClientState.playerX, playerY,
score, level, lives, gameOver of client_constants.h). -/
structure Entity where
  x : Int
  y : Int
  score : Int
  level : Int
  lives : Int
  gameOver : Bool
deriving DecidableEq

/-- One step of the player-mode live-state sync (client_interface.c
lines 505-520): the six fields are overwritten in one block iff the tag
is STATE and the embedded id equals the tracked playerId. -/
def process_state_line (pid : Int) (e : Entity) (l : List Char) : Entity :=
  match parse_state_player l with
  | some st =>
    if st.tag = stateLit ∧ st.pid = pid then
      ⟨st.x, st.y, st.score, st.level, st.lives, st.over == trueLit⟩
    else e
  | none => e

/-- The entity a line would install, when it is an accepted STATE line
for the given playerId. -/
def matching_entity (pid : Int) (l : List Char) : Option Entity :=
  match parse_state_player l with
  | some st =>
    if st.tag = stateLit ∧ st.pid = pid then
      some ⟨st.x, st.y, st.score, st.level, st.lives, st.over == trueLit⟩
    else none
  | none => none

/-- The seven fields read by the spectator-mode live loop:
sscanf(line, "%15s %d %d %d %d %d %7s", tag, &s, &pid, &x, &y, &score,
gameOverStr) == 7 (run_spectator_mode 744-746) — no level or lives. -/
structure SpecStateLine where
  tag : List Char
  seq : Int
  pid : Int
  x : Int
  y : Int
  score : Int
  over : List Char
deriving DecidableEq

def parse_state_spectator (l : List Char) : Option SpecStateLine :=
  (scanTok 15 l).bind fun t =>
  (scanInt t.2).bind fun s =>
  (scanInt s.2).bind fun p =>
  (scanInt p.2).bind fun x =>
  (scanInt x.2).bind fun y =>
  (scanInt y.2).bind fun sc =>
  (scanTok 7 sc.2).map fun go =>
  ⟨t.1, s.1, p.1, x.1, y.1, sc.1, go.1⟩

/-- One step of the spectator-mode live sync (client_interface.c lines
739-755): only playerX, playerY, score and gameOver are assigned;
level and lives are never written by this handler. -/
def process_state_line_spectator (pid : Int) (e : Entity) (l : List Char) : Entity :=
  match parse_state_spectator l with
  | some st =>
    if st.tag = stateLit ∧ st.pid = pid then
      ⟨st.x, st.y, st.score, e.level, e.lives, st.over == trueLit⟩
    else e
  | none => e

/-- The (x, y, score, gameOver) quadruple a line would install in
spectator mode, when it is an accepted STATE line for the playerId. -/
def matching_quad (pid : Int) (l : List Char) : Option (Int × Int × Int × Bool) :=
  match parse_state_spectator l with
  | some st =>
    if st.tag = stateLit ∧ st.pid = pid then
      some (st.x, st.y, st.score, st.over == trueLit)
    else none
  | none => none

/- ===== Map transfer (receive_initial_map, client_interface.c 42-104) ===== -/

/-- GameMap of client_constants.h: width/height are C ints, tiles holds
height rows of width characters each (row 0 is the bottom row). -/
structure GameMap where
  width : Int
  height : Int
  tiles : List (List Char)
deriving DecidableEq

def MAX_MAP_WIDTH : Int := 32
def MAX_MAP_HEIGHT : Int := 32
def MAX_PLAYERS : Nat := 16

/-- strncpy(tiles[y], row, width): at most width characters are copied
and, when the row is shorter, the remainder is NUL-padded. -/
def storeRow (w : Nat) (row : List Char) : List Char :=
  row.take w ++ List.replicate (w - row.length) '\x00'

/-- The two ways receive_initial_map returns -1: the transport ran out
of lines, or the declared size violated the 1..32 bounds. -/
inductive MapErr where
  | disconnected
  | badSize
deriving DecidableEq

/-- Phase 1 of receive_initial_map: discard lines until one parses as
MAP_SIZE; recv_line returning len <= 0 — no more lines, or an empty
line — is fatal (client_interface.c line 53). -/
def awaitMapSize : List (List Char) → Option (Int × Int × List (List Char))
  | [] => none
  | l :: rest =>
    if l.isEmpty then none
    else
      match parse_map_size l with
      | some p => some (p.1, p.2, rest)
      | none => awaitMapSize rest

/-- Phase 2 of receive_initial_map: collect MAP_ROW lines (in-range y
only) until a line starting with MAP_END; other nonempty lines are
ignored, while len <= 0 — no more lines, or an empty line — aborts the
transfer (client_interface.c line 83). -/
def collectRows (hgt : Int) (w : Nat) :
    List (List Char) → List (List Char) → Option (List (List Char) × List (List Char))
  | _, [] => none
  | tiles, l :: rest =>
    if l.isEmpty then none
    else if startsWithLit mapEndLit l then some (tiles, rest)
    else
      match parse_map_row l with
      | some p =>
        if 0 ≤ p.1 ∧ p.1 < hgt then
          collectRows hgt w (tiles.set p.1.toNat (storeRow w p.2)) rest
        else collectRows hgt w tiles rest
      | none => collectRows hgt w tiles rest

/-- receive_initial_map: await MAP_SIZE, validate the bounds, pre-fill
the grid with '.', then collect rows until MAP_END.  Also returns the
lines left unread, so that phases can be chained as in the C client. -/
def receive_initial_map (lines : List (List Char)) :
    Except MapErr (GameMap × List (List Char)) :=
  match awaitMapSize lines with
  | none => .error .disconnected
  | some (w, h, rest) =>
    if w ≤ 0 ∨ h ≤ 0 ∨ w > MAX_MAP_WIDTH ∨ h > MAX_MAP_HEIGHT then .error .badSize
    else
      match collectRows h w.toNat
          (List.replicate h.toNat (List.replicate w.toNat '.')) rest with
      | none => .error .disconnected
      | some (tiles, rest2) => .ok (⟨w, h, tiles⟩, rest2)

/- ===== Movement-intent resolver (client_interface.c 525-606) ===== -/

/-- The guarded tile read of the live loop: tiles[y][x] when both
coordinates are in range, otherwise the default '.'. -/
def tileAt (m : GameMap) (x y : Int) : Char :=
  if 0 ≤ y ∧ y < m.height ∧ 0 ≤ x ∧ x < m.width then
    (m.tiles.getD y.toNat []).getD x.toNat '.'
  else '.'

/-- is_solid_tile_char (client_interface.c 107-110); the live loop
inlines the same test for solid_current and solid_below. -/
def is_solid_tile_char (t : Char) : Bool :=
  t == 'T' || t == '=' || t == '|' || t == 'S'

/-- supported = solid_current || solid_below. -/
def supported (m : GameMap) (x y : Int) : Bool :=
  is_solid_tile_char (tileAt m x y) || is_solid_tile_char (tileAt m x (y - 1))

/-- hasCeilingAbove: the tile above is 'T', '=' or 'S'. -/
def hasCeilingAbove (m : GameMap) (x y : Int) : Bool :=
  tileAt m x (y + 1) == 'T' || tileAt m x (y + 1) == '=' || tileAt m x (y + 1) == 'S'

/-- onLianaTile: the current tile is '|'. -/
def onLianaTile (m : GameMap) (x y : Int) : Bool :=
  tileAt m x y == '|'

/-- The key events the live loop reads each frame: four held keys and
the discrete SPACE press. -/
structure Keys where
  left : Bool
  right : Bool
  up : Bool
  down : Bool
  jump : Bool
deriving DecidableEq

/-- The (dx, dy) computed by one live-loop iteration.  With gameOver
set the whole block is skipped, leaving dx = dy = 0.  The jump branch
runs on a SPACE press when supported and unobstructed; otherwise dx is
set by LEFT then overwritten by RIGHT (two independent ifs), and dy
climbs the liana respecting the ceiling going up but not going down. -/
def resolve_input (m : GameMap) (x y : Int) (gameOver : Bool) (k : Keys) : Int × Int :=
  if gameOver then (0, 0)
  else if k.jump && supported m x y && !hasCeilingAbove m x y then
    (if k.left then -2 else if k.right then 2 else 0, 1)
  else
    let dx1 : Int := if k.left then -1 else 0
    let dx : Int := if k.right then 1 else dx1
    let dy : Int :=
      if onLianaTile m x y && !hasCeilingAbove m x y && k.up then 1
      else if onLianaTile m x y && k.down then -1 else 0
    (dx, dy)

/- ===== The player-mode live loop (client_interface.c 489-648) ===== -/

/-- One frame consumes one received line and the current key events:
recv_line returning len <= 0 — no more lines, or an empty line —
breaks the loop (client_interface.c line 498); otherwise the STATE
sync runs first, then the resolver; a non-zero intent increments seq
and emits INPUT seq dx dy.  Returns the final entity, the final seq
and the emitted INPUT messages. -/
def play_frames (m : GameMap) (pid : Int) :
    Entity → Nat → List (List Char × Keys) → Entity × Nat × List (Nat × Int × Int)
  | e, s, [] => (e, s, [])
  | e, s, (l, k) :: rest =>
    if l.isEmpty then (e, s, [])
    else
      let e2 := process_state_line pid e l
      let p := resolve_input m e2.x e2.y e2.gameOver k
      if p.1 ≠ 0 ∨ p.2 ≠ 0 then
        let r := play_frames m pid e2 (s + 1) rest
        (r.1, r.2.1, (s + 1, p) :: r.2.2)
      else play_frames m pid e2 s rest

/-- The per-frame intents of the same run, one entry per executed
frame (the loop-breaking empty line ends the trace as well). -/
def intent_trace (m : GameMap) (pid : Int) :
    Entity → List (List Char × Keys) → List (Int × Int)
  | _, [] => []
  | e, (l, k) :: rest =>
    if l.isEmpty then []
    else
      let e2 := process_state_line pid e l
      resolve_input m e2.x e2.y e2.gameOver k :: intent_trace m pid e2 rest

/- ===== Roster fetch (fetch_player_list, client_interface.c 133-180) ===== -/

structure PlayerInfo where
  id : Int
  name : List Char
deriving DecidableEq

/-- The receive loop of fetch_player_list, with its exact check order:
the fatal len <= 0 test (no more lines, or an empty line — line 145),
then PLAYERS_BEGIN (note), PLAYERS_END (done), discard-before-begin,
then PLAYER entries appended while numPlayers < MAX_PLAYERS. -/
def fetch_loop : Bool → List PlayerInfo → List (List Char) → Option (List PlayerInfo)
  | _, _, [] => none
  | gotBegin, acc, l :: rest =>
    if l.isEmpty then none
    else if startsWithLit playersBeginLit l then fetch_loop true acc rest
    else if startsWithLit playersEndLit l then some acc
    else if !gotBegin then fetch_loop gotBegin acc rest
    else
      match parse_player_entry l with
      | some p =>
        if acc.length < MAX_PLAYERS then fetch_loop gotBegin (acc ++ [⟨p.1, p.2⟩]) rest
        else fetch_loop gotBegin acc rest
      | none => fetch_loop gotBegin acc rest

/-- fetch_player_list starts from numPlayers = 0, so every fetch
rebuilds the observable roster from scratch. -/
def fetch_player_list (lines : List (List Char)) : Option (List PlayerInfo) :=
  fetch_loop false [] lines

/- ===== Handshake negotiation ===== -/

/-- The JOIN scan of run_player_mode (459-473): discard lines until one
parses as JOINED, whose id becomes playerId; len <= 0 — no more lines,
or an empty line — ends the session (line 462). -/
def join_scan : List (List Char) → Option (Int × List (List Char))
  | [] => none
  | l :: rest =>
    if l.isEmpty then none
    else
      match parse_joined l with
      | some id => some (id, rest)
      | none => join_scan rest

/-- Outcome of the spectate negotiation (run_spectator_mode 693-714):
SPECTATE_OK succeeds with the id, SPECTATE_WAIT aborts the attempt and
the mode returns, end of stream is a disconnect. -/
inductive SpectateResult where
  | accepted (id : Int)
  | waitAbort
  | disconnected
deriving DecidableEq

def spectate_negotiate : List (List Char) → SpectateResult
  | [] => .disconnected
  | l :: rest =>
    if l.isEmpty then .disconnected
    else
      match parse_spectate_ok l with
      | some id => .accepted id
      | none =>
        match parse_spectate_wait l with
        | some _ => .waitAbort
        | none => spectate_negotiate rest

/-- state->playerId after the negotiation: it is zeroed before the loop
and assigned only on SPECTATE_OK. -/
def spectate_playerId_after (lines : List (List Char)) : Int :=
  match spectate_negotiate lines with
  | .accepted id => id
  | _ => 0

/- ===== Session model (main 788-849 and run_player_mode 449-648) ===== -/

/-- The slice of ClientState that survives from one session to the
next: main memsets it to zero once at process start, and the session
loop reuses the same struct without clearing it. -/
structure CState where
  map : GameMap
  playerId : Int
  ent : Entity
deriving DecidableEq

/-- One player-mode session over a scripted stream: JOIN scan, map
transfer, then the re-initialisation of lines 481-484 (playerX, playerY,
score and gameOver only — level and lives are left untouched), then the
live loop over the remaining lines zipped with per-frame key events. -/
def run_player_session (st : CState) (lines : List (List Char)) (keys : List Keys) :
    CState × List (Nat × Int × Int) :=
  match join_scan lines with
  | none => (⟨st.map, 0, st.ent⟩, [])
  | some (id, rest) =>
    match receive_initial_map rest with
    | .error _ => (⟨st.map, id, st.ent⟩, [])
    | .ok (m, rest2) =>
      let e0 : Entity := ⟨0, 0, 0, st.ent.level, st.ent.lives, false⟩
      let r := play_frames m id e0 0 (rest2.zip keys)
      (⟨m, id, r.1⟩, r.2.2)

/-- A nonempty list fails the isEmpty test. -/
theorem isEmpty_false_of_ne_nil {l : List Char} (h : l ≠ []) : l.isEmpty = false := by
  cases l with
  | nil => exact absurd rfl h
  | cons a as => rfl

/- ===== Claim theorems ===== -/

/-- C1: with gameOver false and no jump press, the ground/climb branch
gives dx = -1 when only LEFT is held, dx = +1 whenever RIGHT is held
(also when both are held: the RIGHT if overwrites the LEFT one), dy = +1
on a liana with UP held and no ceiling above, and otherwise dy = -1 on a
liana with DOWN held, the down climb ignoring the ceiling. -/
theorem movement_ground_climb_rules (m : GameMap) (x y : Int) (k : Keys)
    (hj : k.jump = false) :
    ((k.left = true ∧ k.right = false) → (resolve_input m x y false k).1 = -1) ∧
    (k.right = true → (resolve_input m x y false k).1 = 1) ∧
    ((onLianaTile m x y = true ∧ k.up = true ∧ hasCeilingAbove m x y = false) →
      (resolve_input m x y false k).2 = 1) ∧
    ((onLianaTile m x y = true ∧ k.down = true ∧
        (k.up = false ∨ hasCeilingAbove m x y = true)) →
      (resolve_input m x y false k).2 = -1) := by
  obtain ⟨kl, kr, ku, kd, kj⟩ := k
  simp only at hj
  subst hj
  cases kl <;> cases kr <;> cases ku <;> cases kd <;>
    cases hL : onLianaTile m x y <;> cases hC : hasCeilingAbove m x y <;>
      simp [resolve_input, hL, hC]

theorem movement_ground_climb_rules_witness :
    (resolve_input ⟨1, 2, [['|'], ['.']]⟩ 0 0 false ⟨true, false, true, false, false⟩).1 = -1 ∧
    (resolve_input ⟨1, 2, [['|'], ['.']]⟩ 0 0 false ⟨true, false, true, false, false⟩).2 = 1 :=
  ⟨(movement_ground_climb_rules ⟨1, 2, [['|'], ['.']]⟩ 0 0
      ⟨true, false, true, false, false⟩ rfl).1 ⟨rfl, rfl⟩,
   (movement_ground_climb_rules ⟨1, 2, [['|'], ['.']]⟩ 0 0
      ⟨true, false, true, false, false⟩ rfl).2.2.1 ⟨by decide, rfl, by decide⟩⟩

/-- C2: with gameOver false, a SPACE press while supported and with no
ceiling above yields the jump intent (dy = +1, dx = -2 with LEFT held,
else +2 with RIGHT held, else 0); when unsupported or obstructed the
frame falls through to the ordinary ground/climb resolution, whose
horizontal component never reaches magnitude 2. -/
theorem movement_jump_rules (m : GameMap) (x y : Int) (k : Keys)
    (hj : k.jump = true) :
    (supported m x y = true → hasCeilingAbove m x y = false →
      resolve_input m x y false k =
        (if k.left then -2 else if k.right then 2 else 0, 1)) ∧
    (¬(supported m x y = true ∧ hasCeilingAbove m x y = false) →
      resolve_input m x y false k =
        resolve_input m x y false ⟨k.left, k.right, k.up, k.down, false⟩) ∧
    (resolve_input m x y false ⟨k.left, k.right, k.up, k.down, false⟩).1.natAbs ≤ 1 := by
  obtain ⟨kl, kr, ku, kd, kj⟩ := k
  simp only at hj
  subst hj
  cases kl <;> cases kr <;> cases ku <;> cases kd <;>
    cases hS : supported m x y <;> cases hC : hasCeilingAbove m x y <;>
      simp [resolve_input, hS, hC]

theorem movement_jump_rules_witness :
    resolve_input ⟨1, 1, [['T']]⟩ 0 0 false ⟨true, false, false, false, true⟩ = (-2, 1) :=
  (movement_jump_rules ⟨1, 1, [['T']]⟩ 0 0 ⟨true, false, false, false, true⟩ rfl).1
    (by decide) (by decide)

/-- C3: with the tracked entity's gameOver flag set, the resolver
yields (0, 0) for every map, position and key combination, and a live
frame whose (nonempty) line leaves the entity with gameOver set emits
no INPUT message and leaves the sequence counter unchanged. -/
theorem gameOver_blocks_intent :
    (∀ (m : GameMap) (x y : Int) (k : Keys), resolve_input m x y true k = (0, 0)) ∧
    (∀ (m : GameMap) (pid : Int) (e : Entity) (s : Nat) (l : List Char) (k : Keys)
        (rest : List (List Char × Keys)),
      l ≠ [] →
      (process_state_line pid e l).gameOver = true →
      play_frames m pid e s ((l, k) :: rest) =
        play_frames m pid (process_state_line pid e l) s rest) := by
  constructor
  · intro m x y k
    simp [resolve_input]
  · intro m pid e s l k rest hl h
    simp [play_frames, resolve_input, h, isEmpty_false_of_ne_nil hl]

theorem gameOver_blocks_intent_witness :
    resolve_input ⟨1, 1, [['T']]⟩ 0 0 true ⟨true, true, true, true, true⟩ = (0, 0) ∧
    play_frames ⟨1, 1, [['T']]⟩ 7 ⟨0, 0, 0, 0, 0, false⟩ 0
        [(("STATE 1 7 0 0 5 1 3 true").toList, ⟨true, false, false, false, false⟩)] =
      play_frames ⟨1, 1, [['T']]⟩ 7
        (process_state_line 7 ⟨0, 0, 0, 0, 0, false⟩ ("STATE 1 7 0 0 5 1 3 true").toList)
        0 [] :=
  ⟨gameOver_blocks_intent.1 ⟨1, 1, [['T']]⟩ 0 0 ⟨true, true, true, true, true⟩,
   gameOver_blocks_intent.2 ⟨1, 1, [['T']]⟩ 7 ⟨0, 0, 0, 0, 0, false⟩ 0
     (("STATE 1 7 0 0 5 1 3 true").toList) ⟨true, false, false, false, false⟩ []
     (by decide) (by decide)⟩

/-- Helper for the INPUT emission claim: from any starting counter s,
the messages of a run carry seq values s+1, s+2, ... and exactly the
non-zero intents of the frame trace, in order. -/
theorem play_frames_spec (m : GameMap) (pid : Int) :
    ∀ (fs : List (List Char × Keys)) (e : Entity) (s : Nat),
      ((play_frames m pid e s fs).2.2).map Prod.fst =
        List.range' (s + 1) (((intent_trace m pid e fs).filter
          (fun p => decide (p.1 ≠ 0 ∨ p.2 ≠ 0))).length) ∧
      ((play_frames m pid e s fs).2.2).map Prod.snd =
        (intent_trace m pid e fs).filter (fun p => decide (p.1 ≠ 0 ∨ p.2 ≠ 0)) := by
  intro fs
  induction fs with
  | nil =>
    intro e s
    simp [play_frames, intent_trace]
  | cons f rest ih =>
    intro e s
    obtain ⟨l, k⟩ := f
    simp only [play_frames, intent_trace]
    by_cases hemp : l.isEmpty = true
    · simp [hemp]
    · simp only [if_neg hemp]
      by_cases h : (resolve_input m (process_state_line pid e l).x
          (process_state_line pid e l).y (process_state_line pid e l).gameOver k).1 ≠ 0 ∨
          (resolve_input m (process_state_line pid e l).x
          (process_state_line pid e l).y (process_state_line pid e l).gameOver k).2 ≠ 0
      · rw [if_pos h, List.filter_cons_of_pos (by simpa using h)]
        constructor
        · simp only [List.map_cons, (ih _ (s + 1)).1, List.length_cons]
          rfl
        · simp only [List.map_cons, (ih _ (s + 1)).2]
      · rw [if_neg h, List.filter_cons_of_neg (by simpa using h)]
        exact ih _ s

/-- C4: starting from the per-session counter seq = 0 (run_player_mode
line 486, re-created each session), a frame emits an INPUT message iff
its resolved intent is non-zero; the emitted messages carry exactly the
non-zero intents in order, with seq values 1..K strictly increasing and
no increment on frames that produced no intent. -/
theorem input_seq_emission (m : GameMap) (pid : Int) (e : Entity)
    (fs : List (List Char × Keys)) :
    ((play_frames m pid e 0 fs).2.2).map Prod.fst =
      List.range' 1 (((intent_trace m pid e fs).filter
        (fun p => decide (p.1 ≠ 0 ∨ p.2 ≠ 0))).length) ∧
    ((play_frames m pid e 0 fs).2.2).map Prod.snd =
      (intent_trace m pid e fs).filter (fun p => decide (p.1 ≠ 0 ∨ p.2 ≠ 0)) :=
  play_frames_spec m pid fs e 0

/-- process_state_line installs exactly the entity described by
matching_entity, and leaves the entity alone otherwise. -/
theorem process_state_line_eq (pid : Int) (e : Entity) (l : List Char) :
    process_state_line pid e l = ((matching_entity pid l).getD e) := by
  unfold process_state_line matching_entity
  cases parse_state_player l with
  | none => rfl
  | some st =>
    by_cases h : st.tag = stateLit ∧ st.pid = pid
    · simp [h]
    · simp [h]

/-- The last element of a nonempty list, with the head as fallback. -/
theorem lastD_cons {α : Type} : ∀ (R : List α) (a e : α),
    ((a :: R).getLast?).getD e = (R.getLast?).getD a := by
  intro R
  induction R with
  | nil => intro a e; rfl
  | cons c cs ih =>
    intro a e
    rw [List.getLast?_cons_cons, ih c e, ih c a]

/-- Folding getD over options keeps the last present value. -/
theorem lastD_filterMap_fold {α β : Type} (f : β → Option α) :
    ∀ (ls : List β) (e : α),
      ls.foldl (fun a b => (f b).getD a) e = ((ls.filterMap f).getLast?).getD e := by
  intro ls
  induction ls with
  | nil => intro e; rfl
  | cons b bs ih =>
    intro e
    simp only [List.foldl_cons, List.filterMap_cons]
    cases h : f b with
    | none => simp only [h, Option.getD_none, ih]
    | some a => simp only [h, Option.getD_some, ih, lastD_cons]

/-- The player-mode sync over any line sequence installs exactly the
entity of the last accepted STATE line, or keeps the initial entity. -/
theorem state_filter_player_fold (pid : Int) (e0 : Entity) (lines : List (List Char)) :
    lines.foldl (process_state_line pid) e0 =
      ((lines.filterMap (matching_entity pid)).getLast?).getD e0 := by
  have h : ∀ (ls : List (List Char)) (e : Entity),
      ls.foldl (process_state_line pid) e =
        ls.foldl (fun a b => ((matching_entity pid b).getD a)) e := by
    intro ls
    induction ls with
    | nil => intro e; rfl
    | cons b bs ih =>
      intro e
      simp only [List.foldl_cons, process_state_line_eq, ih]
  rw [h, lastD_filterMap_fold]

/-- The spectator-mode sync step installs exactly the quadruple
described by matching_quad, over the entity's own level and lives, and
leaves the entity alone otherwise. -/
theorem process_spectator_eq (pid : Int) (e : Entity) (l : List Char) :
    process_state_line_spectator pid e l =
      (match matching_quad pid l with
        | some q => ⟨q.1, q.2.1, q.2.2.1, e.level, e.lives, q.2.2.2⟩
        | none => e) := by
  unfold process_state_line_spectator matching_quad
  cases parse_state_spectator l with
  | none => rfl
  | some st =>
    by_cases h : st.tag = stateLit ∧ st.pid = pid
    · simp [h]
    · simp [h]

/-- A nonempty list has a last element. -/
theorem cons_getLast_some {α : Type} : ∀ (r : α) (rs : List α),
    ∃ z, (r :: rs).getLast? = some z := by
  intro r rs
  induction rs generalizing r with
  | nil => exact ⟨r, rfl⟩
  | cons b bs ih =>
    obtain ⟨z, hz⟩ := ih b
    exact ⟨z, by rw [List.getLast?_cons_cons]; exact hz⟩

/-- The spectator-mode sync over any line sequence installs the x, y,
score and gameOver of the last accepted STATE line while level and
lives keep their initial values throughout. -/
theorem spectator_fold (pid : Int) :
    ∀ (lines : List (List Char)) (e : Entity),
      lines.foldl (process_state_line_spectator pid) e =
        (match (lines.filterMap (matching_quad pid)).getLast? with
          | some q => ⟨q.1, q.2.1, q.2.2.1, e.level, e.lives, q.2.2.2⟩
          | none => e) := by
  intro lines
  induction lines with
  | nil => intro e; rfl
  | cons l ls ih =>
    intro e
    rw [List.foldl_cons]
    cases hq : matching_quad pid l with
    | none =>
      have hstep : process_state_line_spectator pid e l = e := by
        rw [process_spectator_eq, hq]
      have hfm : (l :: ls).filterMap (matching_quad pid) =
          ls.filterMap (matching_quad pid) := by
        simp [List.filterMap_cons, hq]
      rw [hstep, hfm]
      exact ih e
    | some q =>
      have hstep : process_state_line_spectator pid e l =
          ⟨q.1, q.2.1, q.2.2.1, e.level, e.lives, q.2.2.2⟩ := by
        rw [process_spectator_eq, hq]
      have hfm : (l :: ls).filterMap (matching_quad pid) =
          q :: ls.filterMap (matching_quad pid) := by
        simp [List.filterMap_cons, hq]
      rw [hstep, ih _, hfm]
      cases hR : ls.filterMap (matching_quad pid) with
      | nil => rfl
      | cons r rs =>
        obtain ⟨z, hz⟩ := cons_getLast_some r rs
        rw [List.getLast?_cons_cons, hz]

/-- C6 counterexample: the spectator-mode handler (the claim's second
cited site) accepts the nine-token STATE line
"STATE 1 7 2 3 5 3 1 true" for playerId 7 but installs only x = 2,
y = 3, score = 5, keeps stale level = 9 and lives = 9, and reads its
gameOver token from the line's level field "3", yielding false — while
the fields carried by that line are level 3, lives 1, gameOver true
(the player-mode parse of the same line).  The resulting entity is a
mix, not the last matching line's fields. -/
theorem state_mix_spectator_cex :
    List.foldl (process_state_line_spectator 7) ⟨0, 0, 0, 9, 9, false⟩
        ["STATE 1 7 2 3 5 3 1 true".toList] = ⟨2, 3, 5, 9, 9, false⟩ ∧
    matching_entity 7 ("STATE 1 7 2 3 5 3 1 true".toList) =
      some ⟨2, 3, 5, 3, 1, true⟩ ∧
    (⟨2, 3, 5, 9, 9, false⟩ : Entity) ≠ ⟨2, 3, 5, 3, 1, true⟩ := by
  refine ⟨by decide, by decide, by decide⟩

/-- C6 (amended): over any sequence of received lines, the tracked
entity is rewritten only by lines that parse as STATE with the
session's playerId embedded.  The player-mode handler installs all six
fields — x, y, score, level, lives, gameOver — as one unit, so the
final entity equals the one described by the last matching line (or
the initial entity).  The spectator-mode handler installs only x, y,
score and gameOver of its last matching line as one unit; level and
lives are never written and keep their prior values. -/
theorem state_filter_by_mode (pid : Int) (e0 : Entity) (lines : List (List Char)) :
    lines.foldl (process_state_line pid) e0 =
      ((lines.filterMap (matching_entity pid)).getLast?).getD e0 ∧
    lines.foldl (process_state_line_spectator pid) e0 =
      (match (lines.filterMap (matching_quad pid)).getLast? with
        | some q => ⟨q.1, q.2.1, q.2.2.1, e0.level, e0.lives, q.2.2.2⟩
        | none => e0) :=
  ⟨state_filter_player_fold pid e0 lines, spectator_fold pid lines e0⟩

/-- The roster entry a PLAYER line contributes. -/
def roster_entry (l : List Char) : Option PlayerInfo :=
  (parse_player_entry l).map fun p => ⟨p.1, p.2⟩

/-- A line passing a startsWithLit test splits into the literal and a
tail. -/
theorem startsWithLit_decomp : ∀ (lit l : List Char),
    startsWithLit lit l = true → ∃ t, l = lit ++ t := by
  intro lit
  induction lit with
  | nil => intro l _; exact ⟨l, rfl⟩
  | cons c cs ih =>
    intro l h
    cases l with
    | nil => simp [startsWithLit] at h
    | cons d ds =>
      simp only [startsWithLit, Bool.and_eq_true, beq_iff_eq] at h
      obtain ⟨rfl, h2⟩ := h
      obtain ⟨t, rfl⟩ := ih ds h2
      exact ⟨t, rfl⟩

/-- A line that begins with PLAYERS_BEGIN never parses as a PLAYER
entry: after the literal PLAYER the next character is 'S', where %d
finds no digit. -/
theorem roster_entry_begin_none (l : List Char)
    (h : startsWithLit playersBeginLit l = true) : roster_entry l = none := by
  obtain ⟨t, rfl⟩ := startsWithLit_decomp _ _ h
  rfl

/-- Nonempty lines before PLAYERS_BEGIN that also do not look like
PLAYERS_END are discarded by the fetch loop. -/
theorem fetch_loop_skip_before :
    ∀ (pre rest : List (List Char)) (acc : List PlayerInfo),
      (∀ l ∈ pre, startsWithLit playersBeginLit l = false ∧
        startsWithLit playersEndLit l = false ∧ l ≠ []) →
      fetch_loop false acc (pre ++ rest) = fetch_loop false acc rest := by
  intro pre
  induction pre with
  | nil => intro rest acc _; rfl
  | cons l ls ih =>
    intro rest acc h
    have h1 := h l (by simp)
    simp only [List.cons_append, fetch_loop, isEmpty_false_of_ne_nil h1.2.2,
      h1.1, h1.2.1, Bool.false_eq_true, if_false, Bool.not_false, if_true]
    exact ih rest acc fun x hx => h x (by simp [hx])

/-- While collecting, the loop appends each parsed PLAYER entry while
below the cap and stops at the PLAYERS_END line. -/
theorem fetch_loop_collect :
    ∀ (body : List (List Char)) (acc : List PlayerInfo) (post : List (List Char)),
      (∀ l ∈ body, startsWithLit playersEndLit l = false ∧ l ≠ []) →
      fetch_loop true acc (body ++ playersEndLit :: post) =
        some (acc ++ (body.filterMap roster_entry).take (MAX_PLAYERS - acc.length)) := by
  intro body
  induction body with
  | nil =>
    intro acc post _
    have hne : playersEndLit.isEmpty = false := by decide
    have hbe : startsWithLit playersBeginLit playersEndLit = false := by decide
    have hee : startsWithLit playersEndLit playersEndLit = true := by decide
    simp only [List.nil_append, fetch_loop, hne, hbe, Bool.false_eq_true, if_false,
      hee, if_true, List.filterMap_nil, List.take_nil, List.append_nil]
  | cons l ls ih =>
    intro acc post h
    have hend := (h l (by simp)).1
    have hnemp := isEmpty_false_of_ne_nil (h l (by simp)).2
    have htail : ∀ x ∈ ls, startsWithLit playersEndLit x = false ∧ x ≠ [] :=
      fun x hx => h x (by simp [hx])
    by_cases hb : startsWithLit playersBeginLit l = true
    · have hre := roster_entry_begin_none l hb
      simp only [List.cons_append, fetch_loop, hnemp, hb, Bool.false_eq_true,
        if_false, if_true, List.filterMap_cons, hre, List.append_eq]
      exact ih acc post htail
    · simp only [Bool.not_eq_true] at hb
      simp only [List.cons_append, fetch_loop, hnemp, hb, hend, Bool.false_eq_true,
        if_false, Bool.not_true, List.filterMap_cons, List.append_eq]
      cases hp : parse_player_entry l with
      | none =>
        simp only [roster_entry, hp, Option.map_none']
        exact ih acc post htail
      | some p =>
        simp only [roster_entry, hp, Option.map_some']
        by_cases hlen : acc.length < MAX_PLAYERS
        · simp only [hlen, if_true]
          have hstep := ih (acc ++ [(⟨p.1, p.2⟩ : PlayerInfo)]) post htail
          rw [hstep]
          have harith : MAX_PLAYERS - acc.length =
              (MAX_PLAYERS - (acc ++ [(⟨p.1, p.2⟩ : PlayerInfo)]).length) + 1 := by
            simp only [List.length_append, List.length_cons, List.length_nil]
            simp only [MAX_PLAYERS] at hlen ⊢
            omega
          rw [harith, List.take_succ_cons, List.append_assoc, List.singleton_append]
        · simp only [hlen, if_false]
          rw [ih acc post htail]
          have harith : MAX_PLAYERS - acc.length = 0 := by
            simp only [MAX_PLAYERS] at hlen ⊢
            omega
          simp [harith]

/-- C7: a roster fetch that sees arbitrary ignorable nonempty lines,
then PLAYERS_BEGIN, then a body of PLAYER lines possibly interleaved
with unrelated nonempty lines, then PLAYERS_END, succeeds and returns
exactly the parsed PLAYER entries in arrival order, truncated to the
MAX_PLAYERS cap (earlier entries kept, overflow dropped); every line
before PLAYERS_BEGIN is discarded.  The fetch starts from
numPlayers = 0, so the result replaces any previous roster. -/
theorem roster_fetch_correct (pre body post : List (List Char))
    (hpre : ∀ l ∈ pre, startsWithLit playersBeginLit l = false ∧
      startsWithLit playersEndLit l = false ∧ l ≠ [])
    (hbody : ∀ l ∈ body, startsWithLit playersEndLit l = false ∧ l ≠ []) :
    fetch_player_list (pre ++ playersBeginLit :: (body ++ playersEndLit :: post)) =
      some ((body.filterMap roster_entry).take MAX_PLAYERS) := by
  unfold fetch_player_list
  rw [fetch_loop_skip_before pre _ [] hpre]
  have hne : playersBeginLit.isEmpty = false := by decide
  have hbb : startsWithLit playersBeginLit playersBeginLit = true := by decide
  simp only [fetch_loop, hne, Bool.false_eq_true, if_false, hbb, if_true]
  rw [fetch_loop_collect body [] post hbody]
  simp only [List.nil_append, List.length_nil, Nat.sub_zero]

theorem roster_fetch_correct_witness :
    fetch_player_list
        (["STATE 0 1 0 0 0 0 3 false".toList, "PLAYER 9 early".toList] ++
          playersBeginLit :: (["PLAYER 4 ana".toList, "junk".toList,
            "PLAYER 6 bob".toList] ++ playersEndLit :: ["after".toList])) =
      some [⟨4, "ana".toList⟩, ⟨6, "bob".toList⟩] := by
  rw [roster_fetch_correct _ _ _ (by decide) (by decide)]
  decide

/-- A successful literal match splits the line into the literal and the
remainder. -/
theorem matchLit_decomp : ∀ (lit l r : List Char),
    matchLit lit l = some r → l = lit ++ r := by
  intro lit
  induction lit with
  | nil =>
    intro l r h
    simp only [matchLit, Option.some_inj] at h
    simp [h]
  | cons c cs ih =>
    intro l r h
    cases l with
    | nil => simp [matchLit] at h
    | cons d ds =>
      simp only [matchLit] at h
      by_cases hcd : c = d
      · subst hcd
        simp only [if_pos rfl] at h
        rw [List.cons_append, ih ds r h]
      · simp [hcd] at h

/-- A line that parses as SPECTATE_WAIT cannot parse as SPECTATE_OK:
the two literals diverge at their ninth character. -/
theorem wait_not_ok (l : List Char) (id : Int)
    (h : parse_spectate_wait l = some id) : parse_spectate_ok l = none := by
  unfold parse_spectate_wait at h
  cases hm : matchLit spectateWaitLit l with
  | none => rw [hm] at h; simp at h
  | some r =>
    rw [matchLit_decomp _ _ _ hm]
    rfl

/-- Nonempty lines matching neither SPECTATE_OK nor SPECTATE_WAIT are
skipped by the negotiation scan. -/
theorem spectate_negotiate_skip :
    ∀ (pre rest : List (List Char)),
      (∀ l ∈ pre, parse_spectate_ok l = none ∧ parse_spectate_wait l = none ∧
        l ≠ []) →
      spectate_negotiate (pre ++ rest) = spectate_negotiate rest := by
  intro pre
  induction pre with
  | nil => intro rest _; rfl
  | cons l ls ih =>
    intro rest h
    have h1 := h l (by simp)
    simp only [List.cons_append, spectate_negotiate,
      isEmpty_false_of_ne_nil h1.2.2, Bool.false_eq_true, if_false, h1.1, h1.2.1]
    exact ih rest fun x hx => h x (by simp [hx])

/-- C8: a SPECTATE_WAIT line arriving before any SPECTATE_OK makes the
negotiation return the wait-abort outcome, with the session's playerId
left at its zeroed value (never the target); and exhausting the stream
before either response — a disconnect — is the fatal negotiation
failure. -/
theorem spectate_wait_aborts (pre rest : List (List Char)) (waitLine : List Char)
    (tid : Int)
    (hpre : ∀ l ∈ pre, parse_spectate_ok l = none ∧ parse_spectate_wait l = none ∧
      l ≠ [])
    (hwait : parse_spectate_wait waitLine = some tid) :
    spectate_negotiate (pre ++ waitLine :: rest) = SpectateResult.waitAbort ∧
    spectate_playerId_after (pre ++ waitLine :: rest) = 0 ∧
    (∀ lines, (∀ l ∈ lines, parse_spectate_ok l = none ∧ parse_spectate_wait l = none) →
      spectate_negotiate lines = SpectateResult.disconnected) := by
  have hwne : waitLine ≠ [] := by
    intro hcontra
    subst hcontra
    simp [parse_spectate_wait, matchLit, spectateWaitLit] at hwait
  have habort : spectate_negotiate (pre ++ waitLine :: rest) = SpectateResult.waitAbort := by
    rw [spectate_negotiate_skip pre _ hpre]
    simp only [spectate_negotiate, isEmpty_false_of_ne_nil hwne,
      Bool.false_eq_true, if_false, wait_not_ok waitLine tid hwait, hwait]
  refine ⟨habort, ?_, ?_⟩
  · unfold spectate_playerId_after
    rw [habort]
  · intro lines h
    induction lines with
    | nil => rfl
    | cons l ls ih =>
      have h1 := h l (by simp)
      by_cases hemp : l.isEmpty = true
      · simp only [spectate_negotiate, hemp, if_true]
      · simp only [spectate_negotiate, hemp, Bool.false_eq_true, if_false,
          h1.1, h1.2]
        exact ih fun x hx => h x (by simp [hx])

theorem spectate_wait_aborts_witness :
    spectate_negotiate
        (["JOINED 3".toList] ++ "SPECTATE_WAIT 7".toList :: ["SPECTATE_OK 7".toList]) =
      SpectateResult.waitAbort ∧
    spectate_playerId_after
        (["JOINED 3".toList] ++ "SPECTATE_WAIT 7".toList :: ["SPECTATE_OK 7".toList]) = 0 ∧
    spectate_negotiate ["STATE 1 7 0 0 0 0 3 false".toList] =
      SpectateResult.disconnected := by
  have h := spectate_wait_aborts ["JOINED 3".toList] ["SPECTATE_OK 7".toList]
    ("SPECTATE_WAIT 7".toList) 7 (by decide) (by decide)
  exact ⟨h.1, h.2.1, h.2.2 ["STATE 1 7 0 0 0 0 3 false".toList] (by decide)⟩

/-- The MAP_ROW lines of a body that carry an in-range row index, in
arrival order, as (y, row) pairs. -/
def in_range_rows (hgt : Int) (body : List (List Char)) : List (Int × List Char) :=
  (body.filterMap parse_map_row).filter fun p => decide (0 ≤ p.1 ∧ p.1 < hgt)

/-- Nonempty lines that do not parse as MAP_SIZE are discarded while
waiting for the size declaration. -/
theorem awaitMapSize_skip :
    ∀ (pre rest : List (List Char)),
      (∀ l ∈ pre, parse_map_size l = none ∧ l ≠ []) →
      awaitMapSize (pre ++ rest) = awaitMapSize rest := by
  intro pre
  induction pre with
  | nil => intro rest _; rfl
  | cons l ls ih =>
    intro rest h
    have h1 := h l (by simp)
    simp only [List.cons_append, awaitMapSize, isEmpty_false_of_ne_nil h1.2,
      Bool.false_eq_true, if_false, h1.1]
    exact ih rest fun x hx => h x (by simp [hx])

/-- Row collection over a body free of MAP_END prefixes folds exactly
the in-range MAP_ROW updates into the tile grid and stops at MAP_END. -/
theorem collectRows_run (hgt : Int) (w : Nat) :
    ∀ (body tiles post : List (List Char)),
      (∀ l ∈ body, startsWithLit mapEndLit l = false ∧ l ≠ []) →
      collectRows hgt w tiles (body ++ mapEndLit :: post) =
        some ((in_range_rows hgt body).foldl
          (fun ts p => ts.set p.1.toNat (storeRow w p.2)) tiles, post) := by
  intro body
  induction body with
  | nil =>
    intro tiles post _
    have hne : mapEndLit.isEmpty = false := by decide
    have hee : startsWithLit mapEndLit mapEndLit = true := by decide
    simp only [List.nil_append, collectRows, hne, Bool.false_eq_true, if_false,
      hee, if_true, in_range_rows, List.filterMap_nil, List.filter_nil,
      List.foldl_nil]
  | cons l ls ih =>
    intro tiles post h
    have h1 := (h l (by simp)).1
    have hnemp := isEmpty_false_of_ne_nil (h l (by simp)).2
    have htail : ∀ x ∈ ls, startsWithLit mapEndLit x = false ∧ x ≠ [] :=
      fun x hx => h x (by simp [hx])
    cases hp : parse_map_row l with
    | none =>
      have hrows : in_range_rows hgt (l :: ls) = in_range_rows hgt ls := by
        simp [in_range_rows, List.filterMap_cons, hp]
      rw [hrows]
      simp only [List.cons_append, collectRows, hnemp, h1, Bool.false_eq_true,
        if_false, hp]
      exact ih tiles post htail
    | some p =>
      by_cases hr : 0 ≤ p.1 ∧ p.1 < hgt
      · have hrows : in_range_rows hgt (l :: ls) = p :: in_range_rows hgt ls := by
          simp [in_range_rows, List.filterMap_cons, hp, List.filter_cons, hr]
        rw [hrows]
        simp only [List.cons_append, collectRows, hnemp, h1, Bool.false_eq_true,
          if_false, hp, if_pos hr, List.foldl_cons]
        exact ih (tiles.set p.1.toNat (storeRow w p.2)) post htail
      · have hrows : in_range_rows hgt (l :: ls) = in_range_rows hgt ls := by
          simp [in_range_rows, List.filterMap_cons, hp, List.filter_cons, hr]
        rw [hrows]
        simp only [List.cons_append, collectRows, hnemp, h1, Bool.false_eq_true,
          if_false, hp, if_neg hr]
        exact ih tiles post htail

/-- A full-width row is stored unchanged by the strncpy step. -/
theorem storeRow_full (w : Nat) (row : List Char) (h : row.length = w) :
    storeRow w row = row := by
  subst h
  simp [storeRow]

/-- The row-update fold keeps the number of rows. -/
theorem fold_set_length (w : Nat) :
    ∀ (entries : List (Int × List Char)) (ts : List (List Char)),
      (entries.foldl (fun ts p => ts.set p.1.toNat (storeRow w p.2)) ts).length =
        ts.length := by
  intro entries
  induction entries with
  | nil => intro ts; rfl
  | cons e es ih =>
    intro ts
    simp only [List.foldl_cons, ih, List.length_set]

/-- The row-update fold leaves rows it never touches unchanged. -/
theorem fold_set_getD_ne (w : Nat) :
    ∀ (entries : List (Int × List Char)) (ts : List (List Char)) (yn : Nat),
      (∀ p ∈ entries, p.1.toNat ≠ yn) →
      (entries.foldl (fun ts p => ts.set p.1.toNat (storeRow w p.2)) ts).getD yn [] =
        ts.getD yn [] := by
  intro entries
  induction entries with
  | nil => intro ts yn _; rfl
  | cons e es ih =>
    intro ts yn h
    simp only [List.foldl_cons]
    rw [ih _ yn fun p hp => h p (by simp [hp])]
    have hne := h e (by simp)
    simp only [List.getD_eq_getElem?_getD]
    rw [List.getElem?_set_ne hne]

/-- The row-update fold installs the row of each present index, when
the indices are distinct, nonnegative and in range. -/
theorem fold_set_getD_mem (w : Nat) :
    ∀ (entries : List (Int × List Char)) (ts : List (List Char)) (y : Int)
      (r : List Char),
      (y, r) ∈ entries →
      (entries.map Prod.fst).Nodup →
      (∀ p ∈ entries, 0 ≤ p.1) →
      y.toNat < ts.length →
      (entries.foldl (fun ts p => ts.set p.1.toNat (storeRow w p.2)) ts).getD
          y.toNat [] = storeRow w r := by
  intro entries
  induction entries with
  | nil => intro ts y r hmem; simp at hmem
  | cons e es ih =>
    intro ts y r hmem hnodup hpos hlt
    simp only [List.map_cons, List.nodup_cons] at hnodup
    rcases List.mem_cons.mp hmem with heq | htailmem
    · subst heq
      simp only [List.foldl_cons]
      have hne : ∀ p ∈ es, p.1.toNat ≠ y.toNat := by
        intro p hp
        have hppos := hpos p (by simp [hp])
        have hypos := hpos (y, r) (by simp)
        have hpy : p.1 ≠ y := by
          intro hcontra
          have hmm : p.1 ∈ es.map Prod.fst := List.mem_map_of_mem Prod.fst hp
          rw [hcontra] at hmm
          exact hnodup.1 hmm
        omega
      rw [fold_set_getD_ne w es _ y.toNat hne]
      simp only [List.getD_eq_getElem?_getD]
      rw [List.getElem?_set_self (by omega)]
      rfl
    · simp only [List.foldl_cons]
      exact ih _ y r htailmem hnodup.2 (fun p hp => hpos p (by simp [hp]))
        (by rw [List.length_set]; exact hlt)

/-- Entries selected by in_range_rows carry an index inside [0, hgt). -/
theorem in_range_mem_bounds (hgt : Int) (body : List (List Char))
    (p : Int × List Char) (hp : p ∈ in_range_rows hgt body) :
    0 ≤ p.1 ∧ p.1 < hgt := by
  have h := List.of_mem_filter hp
  simpa using h

/-- C5: a MAP_SIZE declaration within bounds, followed by MAP_ROW lines
in any order — each in-range index at most once, rows of full width,
arbitrarily interleaved with unrelated nonempty lines and out-of-range
MAP_ROW lines — and a final MAP_END, makes the transfer succeed with a
w × h map whose transmitted rows hold exactly the transmitted content,
out-of-range MAP_ROW lines ignored without aborting, and
never-transmitted rows still holding the empty tile '.'. -/
theorem map_transfer_correct (pre body post : List (List Char)) (szLine : List Char)
    (w h : Int)
    (hsz : parse_map_size szLine = some (w, h))
    (hw1 : 1 ≤ w) (hw2 : w ≤ MAX_MAP_WIDTH) (hh1 : 1 ≤ h) (hh2 : h ≤ MAX_MAP_HEIGHT)
    (hpre : ∀ l ∈ pre, parse_map_size l = none ∧ l ≠ [])
    (hbody : ∀ l ∈ body, startsWithLit mapEndLit l = false ∧ l ≠ [])
    (hnodup : ((in_range_rows h body).map Prod.fst).Nodup)
    (hlen : ∀ p ∈ in_range_rows h body, (p.2).length = w.toNat) :
    ∃ tiles : List (List Char),
      receive_initial_map (pre ++ szLine :: (body ++ mapEndLit :: post)) =
        Except.ok (⟨w, h, tiles⟩, post) ∧
      tiles.length = h.toNat ∧
      (∀ y r, (y, r) ∈ in_range_rows h body → tiles.getD y.toNat [] = r) ∧
      (∀ yn : Nat, yn < h.toNat → (∀ r, ((yn : Int), r) ∉ in_range_rows h body) →
        tiles.getD yn [] = List.replicate w.toNat '.') := by
  refine ⟨(in_range_rows h body).foldl
    (fun ts p => ts.set p.1.toNat (storeRow w.toNat p.2))
    (List.replicate h.toNat (List.replicate w.toNat '.')), ?_, ?_, ?_, ?_⟩
  · unfold receive_initial_map
    rw [awaitMapSize_skip pre _ hpre]
    have hszne : szLine.isEmpty = false := by
      cases szLine with
      | nil => simp [parse_map_size, matchLit, mapSizeLit] at hsz
      | cons a as => rfl
    simp only [awaitMapSize, hszne, Bool.false_eq_true, if_false, hsz]
    have hvalid : ¬(w ≤ 0 ∨ h ≤ 0 ∨ w > MAX_MAP_WIDTH ∨ h > MAX_MAP_HEIGHT) := by
      simp only [MAX_MAP_WIDTH, MAX_MAP_HEIGHT] at hw2 hh2 ⊢
      omega
    rw [if_neg hvalid, collectRows_run h w.toNat body _ post hbody]
  · rw [fold_set_length]
    simp
  · intro y r hmem
    rw [fold_set_getD_mem w.toNat _ _ y r hmem hnodup
      (fun p hp => (in_range_mem_bounds h body p hp).1)
      (by
        rw [List.length_replicate]
        have hb := in_range_mem_bounds h body _ hmem
        simp only at hb
        omega)]
    exact storeRow_full _ _ (hlen _ hmem)
  · intro yn hyn hnone
    rw [fold_set_getD_ne]
    · simp [List.getD_eq_getElem?_getD, List.getElem?_replicate, hyn]
    · intro p hp
      obtain ⟨p1, p2⟩ := p
      have hb := in_range_mem_bounds h body _ hp
      simp only at hb ⊢
      intro hcontra
      have heq : p1 = (yn : Int) := by omega
      subst heq
      exact hnone p2 hp

theorem map_transfer_correct_witness :
    ∃ tiles : List (List Char),
      receive_initial_map
          (["STATE 1 7 0 0 0 0 3 false".toList] ++ "MAP_SIZE 2 2".toList ::
            (["MAP_ROW 1 =G".toList, "noise".toList, "MAP_ROW 5 WW".toList,
              "MAP_ROW 0 T|".toList] ++ mapEndLit :: ["after".toList])) =
        Except.ok (⟨2, 2, tiles⟩, ["after".toList]) ∧
      tiles.length = (2 : Int).toNat ∧
      (∀ y r, (y, r) ∈ in_range_rows 2 ["MAP_ROW 1 =G".toList, "noise".toList,
          "MAP_ROW 5 WW".toList, "MAP_ROW 0 T|".toList] → tiles.getD y.toNat [] = r) ∧
      (∀ yn : Nat, yn < (2 : Int).toNat →
        (∀ r, ((yn : Int), r) ∉ in_range_rows 2 ["MAP_ROW 1 =G".toList,
          "noise".toList, "MAP_ROW 5 WW".toList, "MAP_ROW 0 T|".toList]) →
        tiles.getD yn [] = List.replicate (2 : Int).toNat '.') :=
  map_transfer_correct ["STATE 1 7 0 0 0 0 3 false".toList]
    ["MAP_ROW 1 =G".toList, "noise".toList, "MAP_ROW 5 WW".toList,
      "MAP_ROW 0 T|".toList]
    ["after".toList] ("MAP_SIZE 2 2".toList) 2 2 (by decide) (by decide) (by decide)
    (by decide) (by decide) (by decide) (by decide) (by decide) (by decide)

/-- C9 counterexample: a received line can terminate a phase fatally
without any transport failure.  An empty line — recv_line returns 0
for it, and every phase treats len <= 0 as fatal — aborts the map
transfer and the JOIN scan even though further valid lines follow; and
a grammar-matching MAP_SIZE line declaring 100x100 aborts the transfer
through the bounds check.  So non-matching/empty lines are not always
silently discarded, and transport failures are not the only fatal
phase terminations. -/
theorem nonmatching_line_fatal_cex :
    receive_initial_map ([] :: ["MAP_SIZE 1 1".toList, mapEndLit]) =
      Except.error MapErr.disconnected ∧
    join_scan ([] :: ["JOINED 1".toList]) = none ∧
    receive_initial_map ["MAP_SIZE 100 100".toList, mapEndLit] =
      Except.error MapErr.badSize ∧
    MapErr.badSize ≠ MapErr.disconnected := by
  refine ⟨rfl, rfl, rfl, ?_⟩
  intro hcontra
  cases hcontra

/-- C9 (amended): every received nonempty line that does not match the
grammar expected by the current phase is silently discarded with the
phase state unchanged; a phase ends fatally on the len <= 0 recv_line
result — a disconnect, or an empty (or lone carriage-return) line —
and, during map transfer only, on an out-of-bounds MAP_SIZE
declaration. -/
theorem mismatch_lines_ignored (pid : Int) :
    (∀ (e : Entity) (l : List Char), matching_entity pid l = none →
      process_state_line pid e l = e) ∧
    (∀ (l : List Char) (rest : List (List Char)), l ≠ [] → parse_map_size l = none →
      awaitMapSize (l :: rest) = awaitMapSize rest) ∧
    (∀ (hgt : Int) (w : Nat) (tiles : List (List Char)) (l : List Char)
        (rest : List (List Char)), l ≠ [] → startsWithLit mapEndLit l = false →
      parse_map_row l = none →
      collectRows hgt w tiles (l :: rest) = collectRows hgt w tiles rest) ∧
    (∀ (g : Bool) (acc : List PlayerInfo) (l : List Char) (rest : List (List Char)),
      l ≠ [] → startsWithLit playersBeginLit l = false →
      startsWithLit playersEndLit l = false → parse_player_entry l = none →
      fetch_loop g acc (l :: rest) = fetch_loop g acc rest) ∧
    (∀ (l : List Char) (rest : List (List Char)), l ≠ [] → parse_joined l = none →
      join_scan (l :: rest) = join_scan rest) ∧
    (∀ (l : List Char) (rest : List (List Char)), l ≠ [] → parse_spectate_ok l = none →
      parse_spectate_wait l = none →
      spectate_negotiate (l :: rest) = spectate_negotiate rest) ∧
    (∀ rest : List (List Char), awaitMapSize ([] :: rest) = none) ∧
    (∀ (hgt : Int) (w : Nat) (tiles : List (List Char)) (rest : List (List Char)),
      collectRows hgt w tiles ([] :: rest) = none) ∧
    (∀ (g : Bool) (acc : List PlayerInfo) (rest : List (List Char)),
      fetch_loop g acc ([] :: rest) = none) ∧
    (∀ rest : List (List Char), join_scan ([] :: rest) = none) ∧
    (∀ rest : List (List Char),
      spectate_negotiate ([] :: rest) = SpectateResult.disconnected) ∧
    (∀ (m : GameMap) (e : Entity) (s : Nat) (k : Keys)
        (rest : List (List Char × Keys)),
      play_frames m pid e s (([], k) :: rest) = (e, s, [])) := by
  refine ⟨?_, ?_, ?_, ?_, ?_, ?_, ?_, ?_, ?_, ?_, ?_, ?_⟩
  · intro e l h
    rw [process_state_line_eq, h]
    rfl
  · intro l rest hl h
    simp only [awaitMapSize, isEmpty_false_of_ne_nil hl, Bool.false_eq_true,
      if_false, h]
  · intro hgt w tiles l rest hl h1 h2
    simp only [collectRows, isEmpty_false_of_ne_nil hl, h1, Bool.false_eq_true,
      if_false, h2]
  · intro g acc l rest hl h1 h2 h3
    cases g <;> simp only [fetch_loop, isEmpty_false_of_ne_nil hl, h1, h2,
      Bool.false_eq_true, if_false, Bool.not_false, Bool.not_true, if_true, h3]
  · intro l rest hl h
    simp only [join_scan, isEmpty_false_of_ne_nil hl, Bool.false_eq_true,
      if_false, h]
  · intro l rest hl h1 h2
    simp only [spectate_negotiate, isEmpty_false_of_ne_nil hl, Bool.false_eq_true,
      if_false, h1, h2]
  · intro rest
    rfl
  · intro hgt w tiles rest
    rfl
  · intro g acc rest
    rfl
  · intro rest
    rfl
  · intro rest
    rfl
  · intro m e s k rest
    rfl

theorem mismatch_lines_ignored_witness :
    process_state_line 7 ⟨1, 2, 3, 4, 5, false⟩ ['x'] = ⟨1, 2, 3, 4, 5, false⟩ ∧
    awaitMapSize (['x'] :: ["MAP_SIZE 1 1".toList]) =
      awaitMapSize ["MAP_SIZE 1 1".toList] ∧
    collectRows 1 1 [['.']] (['x'] :: [mapEndLit]) =
      collectRows 1 1 [['.']] [mapEndLit] ∧
    fetch_loop true [] (['x'] :: [playersEndLit]) =
      fetch_loop true [] [playersEndLit] ∧
    join_scan (['x'] :: ["JOINED 1".toList]) = join_scan ["JOINED 1".toList] ∧
    spectate_negotiate (['x'] :: ["SPECTATE_OK 1".toList]) =
      spectate_negotiate ["SPECTATE_OK 1".toList] ∧
    awaitMapSize [[]] = none ∧
    collectRows 1 1 [['.']] [[]] = none ∧
    fetch_loop true [] [[]] = none ∧
    join_scan [[]] = none ∧
    spectate_negotiate [[]] = SpectateResult.disconnected ∧
    play_frames ⟨1, 1, [['T']]⟩ 7 ⟨0, 0, 0, 0, 0, false⟩ 0
        [([], ⟨true, false, false, false, true⟩)] =
      (⟨0, 0, 0, 0, 0, false⟩, 0, []) :=
  ⟨(mismatch_lines_ignored 7).1 _ ['x'] (by decide),
   (mismatch_lines_ignored 7).2.1 ['x'] _ (by decide) (by decide),
   (mismatch_lines_ignored 7).2.2.1 1 1 [['.']] ['x'] _ (by decide) (by decide)
     (by decide),
   (mismatch_lines_ignored 7).2.2.2.1 true [] ['x'] _ (by decide) (by decide)
     (by decide) (by decide),
   (mismatch_lines_ignored 7).2.2.2.2.1 ['x'] _ (by decide) (by decide),
   (mismatch_lines_ignored 7).2.2.2.2.2.1 ['x'] _ (by decide) (by decide)
     (by decide),
   (mismatch_lines_ignored 7).2.2.2.2.2.2.1 _,
   (mismatch_lines_ignored 7).2.2.2.2.2.2.2.1 1 1 [['.']] _,
   (mismatch_lines_ignored 7).2.2.2.2.2.2.2.2.1 true [] _,
   (mismatch_lines_ignored 7).2.2.2.2.2.2.2.2.2.1 _,
   (mismatch_lines_ignored 7).2.2.2.2.2.2.2.2.2.2.1 _,
   (mismatch_lines_ignored 7).2.2.2.2.2.2.2.2.2.2.2 ⟨1, 1, [['T']]⟩
     ⟨0, 0, 0, 0, 0, false⟩ 0 ⟨true, false, false, false, true⟩ []⟩

/-- Script of a first player session: join as id 7, receive a 1x1 map,
then one STATE frame that sets level 3 and lives 1. -/
def sessionLines1 : List (List Char) :=
  ["JOINED 7".toList, "MAP_SIZE 1 1".toList, "MAP_ROW 0 T".toList, mapEndLit,
   "STATE 1 7 0 0 5 3 1 false".toList]

def sessionKeys1 : List Keys := [⟨false, false, false, false, false⟩]

/-- Script of a second session: join and receive the map, then no live
frames — its final state is the state observable at live-loop entry. -/
def sessionLines2 : List (List Char) :=
  ["JOINED 7".toList, "MAP_SIZE 1 1".toList, mapEndLit]

/-- The ClientState at process start: main memsets the struct to zero
once, before the session loop. -/
def initCState : CState := ⟨⟨0, 0, []⟩, 0, ⟨0, 0, 0, 0, 0, false⟩⟩

/-- C10 counterexample: a first session leaves level = 3 and lives = 1
in the ClientState; the next session re-zeroes only x, y, score and
gameOver (run_player_mode lines 481-484), so at the start of the new
session's live loop the entity still shows the previous session's
level 3 and lives 1 instead of an empty value. -/
theorem session_level_carryover_cex :
    (run_player_session initCState sessionLines1 sessionKeys1).1.ent.level = 3 ∧
    (run_player_session (run_player_session initCState sessionLines1 sessionKeys1).1
        sessionLines2 []).1.ent.level = 3 ∧
    (run_player_session (run_player_session initCState sessionLines1 sessionKeys1).1
        sessionLines2 []).1.ent.lives = 1 := by
  decide

/-- C10 (amended): whenever the next session's JOIN scan and map
transfer succeed, the state at the start of its live loop has a freshly
received map, the fresh playerId, and x = y = score = 0 with gameOver
cleared — but level and lives keep whatever value the previous session
left, until the first matching STATE line overwrites them. -/
theorem session_start_reset_partial (st : CState) (lines : List (List Char))
    (id : Int) (rest rest2 : List (List Char)) (m : GameMap)
    (hjoin : join_scan lines = some (id, rest))
    (hmap : receive_initial_map rest = Except.ok (m, rest2)) :
    (run_player_session st lines []).1 =
      ⟨m, id, ⟨0, 0, 0, st.ent.level, st.ent.lives, false⟩⟩ := by
  simp only [run_player_session, hjoin, hmap, List.zip_nil_right, play_frames]

theorem session_start_reset_partial_witness :
    (run_player_session ⟨⟨1, 1, [['T']]⟩, 9, ⟨4, 4, 9, 3, 1, true⟩⟩
        sessionLines2 []).1 =
      ⟨⟨1, 1, [['.']]⟩, 7, ⟨0, 0, 0, 3, 1, false⟩⟩ :=
  session_start_reset_partial ⟨⟨1, 1, [['T']]⟩, 9, ⟨4, 4, 9, 3, 1, true⟩⟩
    sessionLines2 7 ["MAP_SIZE 1 1".toList, mapEndLit] [] ⟨1, 1, [['.']]⟩
    (by rfl) (by rfl)
